import Mathlib

/-!
Shallow embedding of `mutation-sentinel` (src/src/makeSentinel.js).

The library wraps a JavaScript value in a Proxy ("sentinel") whose traps
report structural mutations to a configurable handler.  We embed the heap of
JavaScript objects explicitly: a heap maps numeric references to objects
(plain objects / functions, or sentinel proxies), and the module-level state
(`_sentinelCache`, `_knownSentinels`, and the stream of mutation-handler
invocations) is threaded through every operation.  A mutation-handler
invocation is recorded by appending the mutation record to `log`; "the
handler is invoked exactly once with record m" is "`log` grows by `[m]`".
-/

namespace MutationSentinel

/-- JavaScript numbers, restricted to what strict equality distinguishes
here: `NaN` (not strictly equal to itself) and exact numbers. -/
inductive JSNum where
  | nan : JSNum
  | int : Int → JSNum
deriving DecidableEq, Repr

/-- JavaScript values: `undefined`, `null`, booleans, numbers, strings, and
references into the heap (objects, functions and proxies). -/
inductive JSVal where
  | undef : JSVal
  | null : JSVal
  | bool : Bool → JSVal
  | num : JSNum → JSVal
  | str : String → JSVal
  | ref : Nat → JSVal
deriving DecidableEq, Repr

/-- JavaScript strict equality `===`.  `NaN === NaN` is `false`; everything
else in the embedded fragment compares structurally (references compare by
identity of the heap address). -/
def strictEq : JSVal → JSVal → Bool
  | JSVal.num JSNum.nan, _ => false
  | _, JSVal.num JSNum.nan => false
  | a, b => a == b

/-- JavaScript loose `value == null`, true exactly for `null`/`undefined`. -/
def isNullish : JSVal → Bool
  | JSVal.undef => true
  | JSVal.null => true
  | _ => false

/-- A property descriptor.  `hasGet` records whether the descriptor carries a
getter (`descriptor.get` in the `defineProperty` trap). -/
structure Descriptor where
  value : JSVal := JSVal.undef
  writable : Bool := true
  configurable : Bool := true
  enumerable : Bool := true
  hasGet : Bool := false
deriving DecidableEq, Repr

/-- A heap object: either a plain object/function with own properties and a
prototype, or a sentinel proxy over a target reference.  `isFunc` mirrors
`typeof`: a Proxy is callable (typeof "function") iff its target is. -/
inductive HeapObj where
  | plain : Bool → List (String × Descriptor) → JSVal → HeapObj
  | proxy : Nat → Bool → HeapObj
deriving DecidableEq, Repr

abbrev Heap := List (Nat × HeapObj)

/-- The four mutation records emitted to the handler.  `target` is always the
reference of the original (unwrapped) object. -/
inductive Mutation where
  | set : Nat → String → JSVal → Mutation
  | defineProp : Nat → String → Descriptor → Mutation
  | deleteProp : Nat → String → Mutation
  | setProto : Nat → JSVal → Mutation
deriving DecidableEq, Repr

/-- The module-level mutable state: the heap, a fresh-reference counter, the
`_sentinelCache` WeakMap (target ref → sentinel ref), the `_knownSentinels`
WeakMap used as a set of sentinel refs, and the list of mutation-handler
invocations in order. -/
structure SentinelState where
  heap : Heap
  nextRef : Nat
  sentinelCache : List (Nat × Nat)
  knownSentinels : List Nat
  log : List Mutation
deriving DecidableEq, Repr

/-- Host environment: whether `Proxy` exists, whether `WeakMap` exists (if
not, `_sentinelCache` and `_knownSentinels` are `undefined`), and the
currently configured `shouldIgnore` predicate. -/
structure Env where
  proxyAvailable : Bool
  weakMapAvailable : Bool
  shouldIgnore : JSVal → Bool

/-- Replace the value at a key in an association list, or append it when the
key is absent. -/
def setAssoc {α β : Type} [BEq α] (l : List (α × β)) (k : α) (x : β) :
    List (α × β) :=
  if (l.lookup k).isSome then
    l.map (fun kv => if kv.1 == k then (k, x) else kv)
  else
    l ++ [(k, x)]

/-- `typeof (ref r) === "function"`. -/
def refIsFunction (heap : Heap) (r : Nat) : Bool :=
  match heap.lookup r with
  | some (HeapObj.plain f _ _) => f
  | some (HeapObj.proxy _ f) => f
  | none => false

/-- `typeof v === "object"` (true for `null` and non-callable heap objects). -/
def typeofIsObject (heap : Heap) (v : JSVal) : Bool :=
  match v with
  | JSVal.null => true
  | JSVal.ref r =>
    match heap.lookup r with
    | some (HeapObj.plain f _ _) => !f
    | some (HeapObj.proxy _ f) => !f
    | none => false
  | _ => false

/-- `typeof v === "function"`. -/
def typeofIsFunction (heap : Heap) (v : JSVal) : Bool :=
  match v with
  | JSVal.ref r => refIsFunction heap r
  | _ => false

/-- `Object.getOwnPropertyDescriptor(target, property)` on a plain object. -/
def getOwnDescriptor (heap : Heap) (r : Nat) (p : String) : Option Descriptor :=
  match heap.lookup r with
  | some (HeapObj.plain _ props _) => props.lookup p
  | _ => none

/-- Property read `target[property]` with prototype-chain lookup, fuelled by
the number of remaining hops (a chain longer than the heap must cycle). -/
def getPropFuel (heap : Heap) : Nat → Nat → String → JSVal
  | 0, _, _ => JSVal.undef
  | fuel + 1, r, p =>
    match heap.lookup r with
    | some (HeapObj.plain _ props proto) =>
      match props.lookup p with
      | some d => d.value
      | none =>
        match proto with
        | JSVal.ref pr => getPropFuel heap fuel pr p
        | _ => JSVal.undef
    | some (HeapObj.proxy t _) => getPropFuel heap fuel t p
    | none => JSVal.undef

/-- Property read `target[property]`. -/
def getProp (heap : Heap) (r : Nat) (p : String) : JSVal :=
  getPropFuel heap (heap.length + 1) r p

/-- Assignment `target[property] = value` on a plain object: update a
writable own data property, create a missing property with default
attributes, and leave a non-writable own property unchanged (the host-level
failure on an unwritable target is not specially handled by the library). -/
def setRawProp (heap : Heap) (r : Nat) (p : String) (v : JSVal) : Heap :=
  match heap.lookup r with
  | some (HeapObj.plain f props proto) =>
    match props.lookup p with
    | some d =>
      if d.writable then
        setAssoc heap r (HeapObj.plain f (setAssoc props p { d with value := v }) proto)
      else
        heap
    | none =>
      setAssoc heap r
        (HeapObj.plain f
          (setAssoc props p
            { value := v, writable := true, configurable := true,
              enumerable := true, hasGet := false })
          proto)
  | _ => heap

/-- `Object.defineProperty(target, property, descriptor)` on a plain,
extensible object: install the descriptor as the own descriptor. -/
def defineOwnProp (heap : Heap) (r : Nat) (p : String) (d : Descriptor) : Heap :=
  match heap.lookup r with
  | some (HeapObj.plain f props proto) =>
    setAssoc heap r (HeapObj.plain f (setAssoc props p d) proto)
  | _ => heap

/-- `Object.getPrototypeOf(target)` on a plain object. -/
def getPrototypeOf (heap : Heap) (r : Nat) : JSVal :=
  match heap.lookup r with
  | some (HeapObj.plain _ _ proto) => proto
  | _ => JSVal.null

/-- `Object.setPrototypeOf(target, prototype)` on a plain object. -/
def setRawPrototype (heap : Heap) (r : Nat) (proto : JSVal) : Heap :=
  match heap.lookup r with
  | some (HeapObj.plain f props _) => setAssoc heap r (HeapObj.plain f props proto)
  | _ => heap

/-- `_valueEq(curValue, newValue, sentinelCache)`: true when the values are
strictly equal; otherwise false when `newValue` is nullish or
`typeof newValue !== "object"`; otherwise true exactly when
`sentinelCache.get(curValue) === newValue`. -/
def _valueEq (heap : Heap) (sentinelCache : List (Nat × Nat))
    (curValue newValue : JSVal) : Bool :=
  if strictEq curValue newValue then
    true
  else if isNullish newValue || !typeofIsObject heap newValue then
    false
  else
    match curValue with
    | JSVal.ref cr =>
      match sentinelCache.lookup cr with
      | some sr => strictEq (JSVal.ref sr) newValue
      | none => false
    | _ => false

/-- `_canMakeNestedSentinel(target, property, targetVal, knownSentinels)`:
false when the read value is nullish, not object/function typed, or already a
known sentinel; otherwise true iff the own descriptor of `property` on the
target exists and is writable or configurable. -/
def _canMakeNestedSentinel (heap : Heap) (knownSentinels : List Nat)
    (targetRef : Nat) (property : String) (targetVal : JSVal) : Bool :=
  if isNullish targetVal ||
      !(typeofIsObject heap targetVal || typeofIsFunction heap targetVal) then
    false
  else
    match targetVal with
    | JSVal.ref r =>
      if knownSentinels.contains r then
        false
      else
        match getOwnDescriptor heap targetRef property with
        | some d => d.writable || d.configurable
        | none => false
    | _ => false

/-- `makeSentinel(value)`: return `value` unchanged when Proxy or WeakMap is
unavailable, the value is nullish or not object/function typed, or the
configured `shouldIgnore` returns true; return `value` when it is a known
sentinel; return the cached sentinel when one exists; otherwise allocate a
fresh proxy over `value`, record the pair in `_sentinelCache` and the proxy
in `_knownSentinels`, and return the proxy. -/
def makeSentinel (env : Env) (s : SentinelState) (value : JSVal) :
    JSVal × SentinelState :=
  if !env.proxyAvailable || !env.weakMapAvailable || isNullish value ||
      !(typeofIsObject s.heap value || typeofIsFunction s.heap value) ||
      env.shouldIgnore value then
    (value, s)
  else
    match value with
    | JSVal.ref r =>
      if s.knownSentinels.contains r then
        (value, s)
      else
        match s.sentinelCache.lookup r with
        | some sr => (JSVal.ref sr, s)
        | none =>
          let p := s.nextRef
          (JSVal.ref p,
            { heap := s.heap ++ [(p, HeapObj.proxy r (refIsFunction s.heap r))]
              nextRef := p + 1
              sentinelCache := s.sentinelCache ++ [(r, p)]
              knownSentinels := s.knownSentinels ++ [p]
              log := s.log })
    | _ => (value, s)

/-- The target reference of a sentinel proxy. -/
def proxyTargetOf (s : SentinelState) (proxyRef : Nat) : Option Nat :=
  match s.heap.lookup proxyRef with
  | some (HeapObj.proxy t _) => some t
  | _ => none

/-- The `get` trap: read `target[property]`; if `_canMakeNestedSentinel`
allows it, return `makeSentinel(targetVal)`, else return the raw value. -/
def sentinelGet (env : Env) (s : SentinelState) (proxyRef : Nat)
    (property : String) : JSVal × SentinelState :=
  match proxyTargetOf s proxyRef with
  | none => (JSVal.undef, s)
  | some t =>
    let targetVal := getProp s.heap t property
    if _canMakeNestedSentinel s.heap s.knownSentinels t property targetVal then
      makeSentinel env s targetVal
    else
      (targetVal, s)

/-- The `set` trap: if `_valueEq(target[property], value)` fails, invoke the
mutation handler with a `set` record, then always perform
`target[property] = value`. -/
def sentinelSet (s : SentinelState) (proxyRef : Nat) (property : String)
    (value : JSVal) : SentinelState :=
  match proxyTargetOf s proxyRef with
  | none => s
  | some t =>
    let s1 :=
      if _valueEq s.heap s.sentinelCache (getProp s.heap t property) value then
        s
      else
        { s with log := s.log ++ [Mutation.set t property value] }
    { s1 with heap := setRawProp s1.heap t property value }

/-- The `defineProperty` trap: invoke the handler with a `defineProperty`
record when no current own descriptor exists, the stored value differs
(strictly) from the incoming one, or the incoming descriptor has a getter;
then always apply `Object.defineProperty` on the target. -/
def sentinelDefineProperty (s : SentinelState) (proxyRef : Nat)
    (property : String) (descriptor : Descriptor) : SentinelState :=
  match proxyTargetOf s proxyRef with
  | none => s
  | some t =>
    let s1 :=
      match getOwnDescriptor s.heap t property with
      | none => { s with log := s.log ++ [Mutation.defineProp t property descriptor] }
      | some cur =>
        if !strictEq cur.value descriptor.value || descriptor.hasGet then
          { s with log := s.log ++ [Mutation.defineProp t property descriptor] }
        else
          s
    { s1 with heap := defineOwnProp s1.heap t property descriptor }

/-- The `deleteProperty` trap: report when the property is an own property,
then delete it. -/
def sentinelDeleteProperty (s : SentinelState) (proxyRef : Nat)
    (property : String) : SentinelState :=
  match proxyTargetOf s proxyRef with
  | none => s
  | some t =>
    let s1 :=
      if (getOwnDescriptor s.heap t property).isSome then
        { s with log := s.log ++ [Mutation.deleteProp t property] }
      else
        s
    match s1.heap.lookup t with
    | some (HeapObj.plain f props proto) =>
      { s1 with heap := setAssoc s1.heap t (HeapObj.plain f (props.filter (fun kv => kv.1 ≠ property)) proto) }
    | _ => s1

/-- The `setPrototypeOf` trap: report when the prototype changes (by
identity), then always apply the change. -/
def sentinelSetPrototypeOf (s : SentinelState) (proxyRef : Nat)
    (proto : JSVal) : SentinelState :=
  match proxyTargetOf s proxyRef with
  | none => s
  | some t =>
    let s1 :=
      if strictEq (getPrototypeOf s.heap t) proto then
        s
      else
        { s with log := s.log ++ [Mutation.setProto t proto] }
    { s1 with heap := setRawPrototype s1.heap t proto }

/-- Modelled from the spec: the `isSentinel` helper exported by the package
index (src/unnamed/part_001) is not present in the provided source of
makeSentinel.js; per the spec, `isStandIn(value)` "returns whether `value`
is a known stand-in (false for nullish, primitives, and ordinary
Observables)", i.e. membership of the value in the known-sentinel set. -/
def isSentinel (s : SentinelState) (value : JSVal) : Bool :=
  match value with
  | JSVal.ref r => s.knownSentinels.contains r
  | _ => false

/-- An options field as passed to `configureSentinels`: either a callable
value (identified by a function id) or any non-callable value (including
omission / `undefined`). -/
inductive OptField where
  | callable : Nat → OptField
  | notCallable : OptField
deriving DecidableEq, Repr

/-- The argument of `configureSentinels`. -/
structure SentinelOpts where
  shouldIgnore : OptField := OptField.notCallable
  mutationHandler : OptField := OptField.notCallable
deriving DecidableEq, Repr

/-- The module-level `_globalOpts`: `none` denotes the built-in defaults
(`falseFn` for `shouldIgnore`, `_defaultMutationHandler` for
`mutationHandler`), `some id` a configured callable. -/
structure FullSentinelOpts where
  shouldIgnore : Option Nat
  mutationHandler : Option Nat
deriving DecidableEq, Repr

/-- The initial `_globalOpts`. -/
def defaultGlobalOpts : FullSentinelOpts :=
  { shouldIgnore := none, mutationHandler := none }

/-- `configureSentinels(opts)`: each field of `_globalOpts` is assigned the
incoming field when it is callable, and the built-in default otherwise; the
previous state `g` is overwritten unconditionally. -/
def configureSentinels (opts : SentinelOpts) (_g : FullSentinelOpts) :
    FullSentinelOpts :=
  { shouldIgnore :=
      match opts.shouldIgnore with
      | OptField.callable id => some id
      | OptField.notCallable => none
    mutationHandler :=
      match opts.mutationHandler with
      | OptField.callable id => some id
      | OptField.notCallable => none }

/-- Well-formedness of the module state: every reference in the heap, the
cache and the known-sentinel set is below the fresh counter, and every cached
sentinel is a known sentinel. -/
def wfState (s : SentinelState) : Bool :=
  s.heap.all (fun kv => kv.1 < s.nextRef) &&
  s.sentinelCache.all (fun kv => kv.1 < s.nextRef && kv.2 < s.nextRef) &&
  s.knownSentinels.all (fun r => r < s.nextRef) &&
  s.sentinelCache.all (fun kv => s.knownSentinels.contains kv.2)

/-- Whether a value is a heap reference (an object, function or proxy). -/
def isRefVal : JSVal → Bool
  | JSVal.ref _ => true
  | _ => false

/-! ### Concrete example states used by witnesses and counterexamples -/

/-- A default environment: Proxy and WeakMap available, ignore nothing. -/
def exEnv : Env := ⟨true, true, fun _ => false⟩

/-- A one-object heap: `obj = {}` at reference 0, nothing wrapped yet. -/
def exStateEmptyObj : SentinelState :=
  ⟨[(0, HeapObj.plain false [] JSVal.null)], 1, [], [], []⟩

/-- `obj = {a: 1}` at reference 0 with its sentinel at reference 1
(the state after `makeSentinel(obj)`). -/
def exStateA : SentinelState :=
  ⟨[(0, HeapObj.plain false [("a", { value := JSVal.num (JSNum.int 1) })] JSVal.null),
    (1, HeapObj.proxy 0 false)],
   2, [(0, 1)], [1], []⟩

/-- `obj = {f: fn}` at reference 0 with `fn` a function at reference 1,
nothing wrapped yet. -/
def exStateFn : SentinelState :=
  ⟨[(0, HeapObj.plain false [("f", { value := JSVal.ref 1 })] JSVal.null),
    (1, HeapObj.plain true [] JSVal.null)],
   2, [], [], []⟩

/-- The state reached from `exStateFn` after `makeSentinel(obj)` (sentinel at
reference 2) and `makeSentinel(fn)` (sentinel at reference 3). -/
def exStateFn2 : SentinelState :=
  ⟨[(0, HeapObj.plain false [("f", { value := JSVal.ref 1 })] JSVal.null),
    (1, HeapObj.plain true [] JSVal.null),
    (2, HeapObj.proxy 0 false),
    (3, HeapObj.proxy 1 true)],
   4, [(0, 2), (1, 3)], [2, 3], []⟩

/-- An object at reference 0 whose own property `"k"` is non-writable and
non-configurable and holds the plain object at reference 1; the sentinel of
the outer object is at reference 2. -/
def exStateRO : SentinelState :=
  ⟨[(0, HeapObj.plain false
        [("k", { value := JSVal.ref 1, writable := false, configurable := false })]
        JSVal.null),
    (1, HeapObj.plain false [] JSVal.null),
    (2, HeapObj.proxy 0 false)],
   3, [(0, 2)], [2], []⟩

/-- `obj = {nested: {}}` with `obj` at 0, the nested object at 1, the
sentinel of `obj` at 2 and the sentinel of the nested object at 3 (the state
after `s = makeSentinel(obj)` and reading `s.nested`). -/
def exStateNested : SentinelState :=
  ⟨[(0, HeapObj.plain false [("nested", { value := JSVal.ref 1 })] JSVal.null),
    (1, HeapObj.plain false [] JSVal.null),
    (2, HeapObj.proxy 0 false),
    (3, HeapObj.proxy 1 false)],
   4, [(0, 2), (1, 3)], [2, 3], []⟩

/-- `obj = {a: NaN}` at reference 0 with its sentinel at reference 1. -/
def exStateNaN : SentinelState :=
  ⟨[(0, HeapObj.plain false [("a", { value := JSVal.num JSNum.nan })] JSVal.null),
    (1, HeapObj.proxy 0 false)],
   2, [(0, 1)], [1], []⟩

/-! ### Association-list lemmas -/

theorem lookup_append_left {α β : Type} [BEq α] (l₁ l₂ : List (α × β)) (k : α)
    (v : β) (h : l₁.lookup k = some v) : (l₁ ++ l₂).lookup k = some v := by
  induction l₁ with
  | nil => simp [List.lookup] at h
  | cons a t ih =>
    rw [List.cons_append]
    rw [List.lookup] at h ⊢
    cases hb : (k == a.1) with
    | true => simpa [hb] using h
    | false => simp only [hb] at h ⊢; exact ih h

theorem lookup_append_right {α β : Type} [BEq α] (l₁ l₂ : List (α × β)) (k : α)
    (h : l₁.lookup k = none) : (l₁ ++ l₂).lookup k = l₂.lookup k := by
  induction l₁ with
  | nil => simp
  | cons a t ih =>
    rw [List.cons_append]
    rw [List.lookup] at h ⊢
    cases hb : (k == a.1) with
    | true => simp [hb] at h
    | false => simp only [hb] at h ⊢; exact ih h

theorem lookup_some_key_mem {α β : Type} [BEq α] [LawfulBEq α]
    (l : List (α × β)) (k : α) (v : β) (h : l.lookup k = some v) :
    k ∈ l.map Prod.fst := by
  induction l with
  | nil => simp [List.lookup] at h
  | cons a t ih =>
    rw [List.lookup] at h
    cases hb : (k == a.1) with
    | true =>
      simp only [List.map_cons, List.mem_cons]
      left
      exact eq_of_beq hb
    | false =>
      simp only [hb] at h
      simp only [List.map_cons, List.mem_cons]
      right
      exact ih h

theorem contains_append_or {α : Type} [BEq α] (l₁ l₂ : List α) (a : α) :
    ((l₁ ++ l₂).contains a) = (l₁.contains a || l₂.contains a) := by
  induction l₁ with
  | nil => simp
  | cons b t ih =>
    rw [List.cons_append]
    simp only [List.contains_cons, ih, Bool.or_assoc]

theorem lookup_map_replace {α β : Type} [BEq α] [LawfulBEq α]
    (l : List (α × β)) (k : α) (x : β) :
    (l.map (fun kv => if kv.1 == k then (k, x) else kv)).lookup k =
      (l.lookup k).map (fun _ => x) := by
  induction l with
  | nil => simp [List.lookup]
  | cons a t ih =>
    simp only [List.map_cons]
    cases h : (a.1 == k) with
    | true =>
      have hk : (k == a.1) = true := by
        rw [eq_of_beq h]
        simp
      rw [if_pos rfl, List.lookup, List.lookup]
      simp [hk]
    | false =>
      have hk : (k == a.1) = false := by
        cases hbe : (k == a.1) with
        | true => rw [eq_of_beq hbe] at h; simp at h
        | false => rfl
      rw [if_neg (by simp), List.lookup, List.lookup]
      simp only [hk]
      exact ih

theorem lookup_map_replace_ne {α β : Type} [BEq α] [LawfulBEq α]
    (l : List (α × β)) (k k' : α) (x : β) (hne : k' ≠ k) :
    (l.map (fun kv => if kv.1 == k then (k, x) else kv)).lookup k' =
      l.lookup k' := by
  induction l with
  | nil => simp
  | cons a t ih =>
    simp only [List.map_cons]
    cases h : (a.1 == k) with
    | true =>
      have hb : (k' == a.1) = false := by
        cases hbe : (k' == a.1) with
        | true => exact absurd ((eq_of_beq hbe).trans (eq_of_beq h)) hne
        | false => rfl
      have hb2 : (k' == k) = false := by
        cases hbe : (k' == k) with
        | true => exact absurd (eq_of_beq hbe) hne
        | false => rfl
      rw [if_pos rfl, List.lookup, List.lookup]
      simp only [hb, hb2]
      exact ih
    | false =>
      rw [if_neg (by simp), List.lookup, List.lookup]
      cases hb : (k' == a.1) with
      | true => rfl
      | false => exact ih

theorem lookup_setAssoc_self {α β : Type} [BEq α] [LawfulBEq α]
    (l : List (α × β)) (k : α) (x : β) : (setAssoc l k x).lookup k = some x := by
  unfold setAssoc
  cases hs : l.lookup k with
  | some v =>
    rw [if_pos (by simp)]
    rw [lookup_map_replace, hs]
    rfl
  | none =>
    rw [if_neg (by simp)]
    rw [lookup_append_right l _ k hs]
    simp [List.lookup]

theorem lookup_setAssoc_ne {α β : Type} [BEq α] [LawfulBEq α]
    (l : List (α × β)) (k k' : α) (x : β) (hne : k' ≠ k) :
    (setAssoc l k x).lookup k' = l.lookup k' := by
  unfold setAssoc
  by_cases hs : (l.lookup k).isSome
  · rw [if_pos hs]
    exact lookup_map_replace_ne l k k' x hne
  · rw [if_neg hs]
    cases hl : l.lookup k' with
    | some v => exact lookup_append_left l _ k' v hl
    | none =>
      rw [lookup_append_right l _ k' hl]
      have hb : (k' == k) = false := by
        cases hbe : (k' == k) with
        | true => exact absurd (eq_of_beq hbe) hne
        | false => rfl
      simp [List.lookup, hb]

theorem append_singleton_ne {α : Type} (l : List α) (m : α) : l ++ [m] ≠ l := by
  intro h
  have := congrArg List.length h
  simp at this

theorem lookup_some_pair_mem {α β : Type} [BEq α] [LawfulBEq α]
    (l : List (α × β)) (k : α) (v : β) (h : l.lookup k = some v) : (k, v) ∈ l := by
  induction l with
  | nil => simp [List.lookup] at h
  | cons a t ih =>
    rw [List.lookup] at h
    cases hb : (k == a.1) with
    | true =>
      simp only [hb] at h
      cases h
      have : (k, a.2) = a := by
        rw [eq_of_beq hb]
      rw [this]
      exact List.mem_cons_self a t
    | false =>
      simp only [hb] at h
      exact List.mem_cons_of_mem a (ih h)

/-! ### Unfolding lemmas for the operations -/

theorem own_destruct {heap : Heap} {t : Nat} {p : String} {d : Descriptor}
    (h : getOwnDescriptor heap t p = some d) :
    ∃ f props proto, heap.lookup t = some (HeapObj.plain f props proto) ∧
      props.lookup p = some d := by
  unfold getOwnDescriptor at h
  cases hl : heap.lookup t with
  | none => rw [hl] at h; cases h
  | some o =>
    cases o with
    | plain f props proto =>
      rw [hl] at h
      exact ⟨f, props, proto, rfl, h⟩
    | proxy t' f => rw [hl] at h; cases h

theorem getProp_of_lookup {heap : Heap} {t : Nat} {p : String} {d : Descriptor}
    {f : Bool} {props : List (String × Descriptor)} {proto : JSVal}
    (h1 : heap.lookup t = some (HeapObj.plain f props proto))
    (h2 : props.lookup p = some d) : getProp heap t p = d.value := by
  unfold getProp
  simp only [getPropFuel, h1, h2]

theorem getProp_of_own {heap : Heap} {t : Nat} {p : String} {d : Descriptor}
    (h : getOwnDescriptor heap t p = some d) : getProp heap t p = d.value := by
  obtain ⟨f, props, proto, h1, h2⟩ := own_destruct h
  exact getProp_of_lookup h1 h2

/-- The gate of `makeSentinel` refuses: the value is returned unchanged and
the state untouched. -/
theorem makeSentinel_pass (env : Env) (s : SentinelState) (v : JSVal)
    (h : (!env.proxyAvailable || !env.weakMapAvailable || isNullish v ||
          !(typeofIsObject s.heap v || typeofIsFunction s.heap v) ||
          env.shouldIgnore v) = true) :
    makeSentinel env s v = (v, s) := by
  unfold makeSentinel
  rw [if_pos h]

theorem makeSentinel_known (env : Env) (s : SentinelState) (r : Nat)
    (hg : (!env.proxyAvailable || !env.weakMapAvailable || isNullish (JSVal.ref r) ||
           !(typeofIsObject s.heap (JSVal.ref r) || typeofIsFunction s.heap (JSVal.ref r)) ||
           env.shouldIgnore (JSVal.ref r)) = false)
    (hkn : s.knownSentinels.contains r = true) :
    makeSentinel env s (JSVal.ref r) = (JSVal.ref r, s) := by
  unfold makeSentinel
  rw [if_neg (by rw [hg]; simp)]
  simp only [hkn, if_pos]

theorem makeSentinel_cached (env : Env) (s : SentinelState) (r sr : Nat)
    (hg : (!env.proxyAvailable || !env.weakMapAvailable || isNullish (JSVal.ref r) ||
           !(typeofIsObject s.heap (JSVal.ref r) || typeofIsFunction s.heap (JSVal.ref r)) ||
           env.shouldIgnore (JSVal.ref r)) = false)
    (hkn : s.knownSentinels.contains r = false)
    (hc : s.sentinelCache.lookup r = some sr) :
    makeSentinel env s (JSVal.ref r) = (JSVal.ref sr, s) := by
  unfold makeSentinel
  rw [if_neg (by rw [hg]; simp)]
  simp only [hkn, hc]
  rfl

theorem makeSentinel_new (env : Env) (s : SentinelState) (r : Nat)
    (hg : (!env.proxyAvailable || !env.weakMapAvailable || isNullish (JSVal.ref r) ||
           !(typeofIsObject s.heap (JSVal.ref r) || typeofIsFunction s.heap (JSVal.ref r)) ||
           env.shouldIgnore (JSVal.ref r)) = false)
    (hkn : s.knownSentinels.contains r = false)
    (hc : s.sentinelCache.lookup r = none) :
    makeSentinel env s (JSVal.ref r) =
      (JSVal.ref s.nextRef,
       ⟨s.heap ++ [(s.nextRef, HeapObj.proxy r (refIsFunction s.heap r))],
        s.nextRef + 1,
        s.sentinelCache ++ [(r, s.nextRef)],
        s.knownSentinels ++ [s.nextRef],
        s.log⟩) := by
  unfold makeSentinel
  rw [if_neg (by rw [hg]; simp)]
  simp only [hkn, hc]
  rfl

/-- If `typeof v` is "object" or "function" for a reference, the reference is
bound in the heap. -/
theorem typeof_true_lookup_isSome {heap : Heap} {r : Nat}
    (h : (typeofIsObject heap (JSVal.ref r) || typeofIsFunction heap (JSVal.ref r)) = true) :
    (heap.lookup r).isSome = true := by
  cases hl : heap.lookup r with
  | none =>
    simp only [typeofIsObject, typeofIsFunction, refIsFunction, hl] at h
    simp at h
  | some o => rfl

/-- `typeof` of a bound reference is unchanged by appending fresh heap
entries. -/
theorem typeof_append {heap : Heap} {r : Nat} {o : HeapObj} (l₂ : Heap)
    (h : heap.lookup r = some o) :
    (typeofIsObject (heap ++ l₂) (JSVal.ref r) ||
       typeofIsFunction (heap ++ l₂) (JSVal.ref r)) =
    (typeofIsObject heap (JSVal.ref r) || typeofIsFunction heap (JSVal.ref r)) := by
  simp only [typeofIsObject, typeofIsFunction, refIsFunction,
    lookup_append_left heap l₂ r o h, h]

end MutationSentinel

namespace MutationSentinel

/-! ### Claim theorems -/

/-- C3: Eligibility gate of `makeSentinel`: `wrap(value)` returns `value`
itself, with the state (cache, known-sentinel set and handler log) unchanged,
whenever the value is nullish, not object/function typed, ignored by the
configured predicate, Proxy or WeakMap is unavailable, or the value is
already a known sentinel. -/
theorem makeSentinel_gate_passthrough (env : Env) (s : SentinelState) (v : JSVal)
    (h : isNullish v = true ∨
         (typeofIsObject s.heap v || typeofIsFunction s.heap v) = false ∨
         env.shouldIgnore v = true ∨
         env.proxyAvailable = false ∨
         env.weakMapAvailable = false ∨
         (∃ r, v = JSVal.ref r ∧ s.knownSentinels.contains r = true)) :
    makeSentinel env s v = (v, s) := by
  rcases h with h | h | h | h | h | ⟨r, rfl, hr⟩
  · exact makeSentinel_pass env s v (by simp [h])
  · exact makeSentinel_pass env s v (by simp [h])
  · exact makeSentinel_pass env s v (by simp [h])
  · exact makeSentinel_pass env s v (by simp [h])
  · exact makeSentinel_pass env s v (by simp [h])
  · cases hg : (!env.proxyAvailable || !env.weakMapAvailable ||
        isNullish (JSVal.ref r) ||
        !(typeofIsObject s.heap (JSVal.ref r) || typeofIsFunction s.heap (JSVal.ref r)) ||
        env.shouldIgnore (JSVal.ref r)) with
    | true => exact makeSentinel_pass env s (JSVal.ref r) hg
    | false => exact makeSentinel_known env s r hg hr

/-- C3 witness: a nullish value passes through the gate unchanged. -/
theorem makeSentinel_gate_passthrough_witness :
    (isNullish JSVal.null = true ∨
     (typeofIsObject exStateEmptyObj.heap JSVal.null ||
        typeofIsFunction exStateEmptyObj.heap JSVal.null) = false ∨
     exEnv.shouldIgnore JSVal.null = true ∨
     exEnv.proxyAvailable = false ∨
     exEnv.weakMapAvailable = false ∨
     (∃ r, JSVal.null = JSVal.ref r ∧
        exStateEmptyObj.knownSentinels.contains r = true)) ∧
    makeSentinel exEnv exStateEmptyObj JSVal.null = (JSVal.null, exStateEmptyObj) :=
  ⟨Or.inl (by decide),
   makeSentinel_gate_passthrough exEnv exStateEmptyObj JSVal.null (Or.inl (by decide))⟩

/-- C4 (code bug): `_valueEq` fails on the cached sentinel of a callable
current value.  Starting from `obj = {f: fn}` (references 0 and 1), wrapping
`obj` and `fn` yields sentinels 2 and 3 and the cache maps `fn` (1) to its
sentinel (3); yet `_valueEq(fn, sentinelOfFn)` is `false` — the code's
`typeof newValue !== "object"` test excludes function-typed proxies — so the
write `s.f = sentinelOfFn` invokes the mutation handler once, where the claim
(and `_valueEq`'s own documentation) requires zero invocations. -/
theorem valueEq_function_sentinel_code_bug :
    (makeSentinel exEnv exStateFn (JSVal.ref 0)).1 = JSVal.ref 2 ∧
    makeSentinel exEnv (makeSentinel exEnv exStateFn (JSVal.ref 0)).2 (JSVal.ref 1) =
      (JSVal.ref 3, exStateFn2) ∧
    refIsFunction exStateFn2.heap 1 = true ∧
    exStateFn2.sentinelCache.lookup 1 = some 3 ∧
    _valueEq exStateFn2.heap exStateFn2.sentinelCache (JSVal.ref 1) (JSVal.ref 3) = false ∧
    (sentinelSet exStateFn2 2 "f" (JSVal.ref 3)).log =
      [Mutation.set 0 "f" (JSVal.ref 3)] := by
  decide

/-- C5 counterexample: a non-callable option field does not retain the
previously configured value.  With the previous configuration holding a
custom ignore predicate (id 7), calling configure with a non-callable
`shouldIgnore` resets the field to the built-in default instead of keeping
id 7, so the claim "the corresponding global configuration field retains its
previous value" is false at this input. -/
theorem configureSentinels_retention_counterexample :
    ¬ ((configureSentinels
          { shouldIgnore := OptField.notCallable,
            mutationHandler := OptField.callable 3 }
          { shouldIgnore := some 7, mutationHandler := some 3 }).shouldIgnore
        = some 7) := by
  decide

/-- C5 (amended): for every configure call, each non-callable option field is
silently ignored in the sense that the corresponding global field is reset to
the built-in default (`falseFn` / the default reporter) — not to the previous
value — while each callable field takes effect; the result never depends on
the previous configuration, and no error is raised (the operation is total).
-/
theorem configureSentinels_noncallable_resets_to_default
    (opts : SentinelOpts) (g : FullSentinelOpts) :
    configureSentinels opts g = configureSentinels opts defaultGlobalOpts ∧
    (configureSentinels opts g).shouldIgnore =
      (match opts.shouldIgnore with
       | OptField.callable id => some id
       | OptField.notCallable => defaultGlobalOpts.shouldIgnore) ∧
    (configureSentinels opts g).mutationHandler =
      (match opts.mutationHandler with
       | OptField.callable id => some id
       | OptField.notCallable => defaultGlobalOpts.mutationHandler) :=
  ⟨rfl, rfl, rfl⟩

end MutationSentinel

namespace MutationSentinel

/-- C2: the `set` trap invokes the configured handler exactly once with
`{set, target, property, rawValue}` iff `_valueEq` deems the current value
and the new value not equivalent; in every case the write is then performed
on the target, and the cache and known-sentinel set are untouched. -/
theorem set_trap_reports_iff (s : SentinelState) (pr t : Nat) (p : String)
    (v : JSVal) (h : proxyTargetOf s pr = some t) :
    ((sentinelSet s pr p v).log = s.log ++ [Mutation.set t p v] ↔
       _valueEq s.heap s.sentinelCache (getProp s.heap t p) v = false) ∧
    ((sentinelSet s pr p v).log = s.log ↔
       _valueEq s.heap s.sentinelCache (getProp s.heap t p) v = true) ∧
    (sentinelSet s pr p v).heap = setRawProp s.heap t p v ∧
    (sentinelSet s pr p v).sentinelCache = s.sentinelCache ∧
    (sentinelSet s pr p v).knownSentinels = s.knownSentinels := by
  simp only [sentinelSet, h]
  cases hv : _valueEq s.heap s.sentinelCache (getProp s.heap t p) v with
  | true =>
    rw [if_pos rfl]
    exact ⟨iff_of_false (fun hab => absurd hab.symm (append_singleton_ne _ _)) (by simp),
           iff_of_true rfl rfl, rfl, rfl, rfl⟩
  | false =>
    rw [if_neg (by simp)]
    exact ⟨iff_of_true rfl rfl,
           iff_of_false (fun hab => absurd hab (append_singleton_ne _ _)) (by simp),
           rfl, rfl, rfl⟩

/-- C2 witness: for `obj = {a: 1}` with sentinel `s`, `s.a = 2` invokes the
handler exactly once with `{set, obj, "a", 2}` and `s.a = 1` invokes it zero
times. -/
theorem set_trap_reports_iff_witness :
    (proxyTargetOf exStateA 1 = some 0) ∧
    (sentinelSet exStateA 1 "a" (JSVal.num (JSNum.int 2))).log =
      exStateA.log ++ [Mutation.set 0 "a" (JSVal.num (JSNum.int 2))] ∧
    (sentinelSet exStateA 1 "a" (JSVal.num (JSNum.int 1))).log = exStateA.log :=
  ⟨by decide,
   (set_trap_reports_iff exStateA 1 0 "a" (JSVal.num (JSNum.int 2)) (by decide)).1.mpr
     (by decide),
   (set_trap_reports_iff exStateA 1 0 "a" (JSVal.num (JSNum.int 1)) (by decide)).2.1.mpr
     (by decide)⟩

end MutationSentinel

namespace MutationSentinel

/-- C7: the `defineProperty` trap invokes the handler exactly once with a
`defineProperty` record (target = the original reference) iff no current own
descriptor exists, or the stored value differs strictly from the incoming
value, or the incoming descriptor specifies a getter; in every case the
definition is then applied to the target. -/
theorem defineProperty_trap_classification (s : SentinelState) (pr t : Nat)
    (p : String) (descriptor : Descriptor) (h : proxyTargetOf s pr = some t) :
    ((sentinelDefineProperty s pr p descriptor).log =
        s.log ++ [Mutation.defineProp t p descriptor] ↔
      (getOwnDescriptor s.heap t p = none ∨
       ∃ cur, getOwnDescriptor s.heap t p = some cur ∧
         (strictEq cur.value descriptor.value = false ∨ descriptor.hasGet = true))) ∧
    ((sentinelDefineProperty s pr p descriptor).log = s.log ↔
      ¬(getOwnDescriptor s.heap t p = none ∨
        ∃ cur, getOwnDescriptor s.heap t p = some cur ∧
          (strictEq cur.value descriptor.value = false ∨ descriptor.hasGet = true))) ∧
    (sentinelDefineProperty s pr p descriptor).heap =
      defineOwnProp s.heap t p descriptor ∧
    (sentinelDefineProperty s pr p descriptor).sentinelCache = s.sentinelCache ∧
    (sentinelDefineProperty s pr p descriptor).knownSentinels = s.knownSentinels := by
  cases hcur : getOwnDescriptor s.heap t p with
  | none =>
    simp only [sentinelDefineProperty, h, hcur]
    refine ⟨iff_of_true trivial (Or.inl trivial), ?_, trivial, trivial, trivial⟩
    exact iff_of_false (fun hab => absurd hab (append_singleton_ne _ _))
      (fun hn => hn (Or.inl trivial))
  | some cur =>
    cases hg : (!strictEq cur.value descriptor.value || descriptor.hasGet) with
    | true =>
      have hcond : strictEq cur.value descriptor.value = false ∨
          descriptor.hasGet = true := by
        cases hs : strictEq cur.value descriptor.value with
        | false => exact Or.inl rfl
        | true =>
          rw [hs] at hg
          simp at hg
          exact Or.inr hg
      simp only [sentinelDefineProperty, h, hcur]
      rw [hg, if_pos rfl]
      refine ⟨iff_of_true rfl (Or.inr ⟨cur, rfl, hcond⟩), ?_, rfl, rfl, rfl⟩
      exact iff_of_false (fun hab => absurd hab (append_singleton_ne _ _))
        (fun hn => hn (Or.inr ⟨cur, rfl, hcond⟩))
    | false =>
      have h1 : strictEq cur.value descriptor.value = true := by
        cases hs : strictEq cur.value descriptor.value with
        | true => rfl
        | false => rw [hs] at hg; simp at hg
      have h2 : descriptor.hasGet = false := by
        cases hs : descriptor.hasGet with
        | false => rfl
        | true => rw [hs] at hg; simp at hg
      have hno : ¬(some cur = none ∨
          ∃ c, some cur = some c ∧
            (strictEq c.value descriptor.value = false ∨ descriptor.hasGet = true)) := by
        rintro (hc | ⟨c, hc, hd⟩)
        · cases hc
        · cases hc
          rcases hd with hd | hd
          · rw [h1] at hd
            cases hd
          · rw [h2] at hd
            cases hd
      simp only [sentinelDefineProperty, h, hcur]
      rw [hg, if_neg (by simp)]
      exact ⟨iff_of_false (fun hab => absurd hab.symm (append_singleton_ne _ _)) hno,
             iff_of_true rfl hno, rfl, rfl, rfl⟩

/-- C7 witness: for `obj = {a: 1}` with sentinel `s`, defining `"a"` with
value 5 reports a `defineProperty` mutation; defining `"a"` with the stored
value 1 reports nothing; in both cases the definition is applied. -/
theorem defineProperty_trap_classification_witness :
    (proxyTargetOf exStateA 1 = some 0) ∧
    (sentinelDefineProperty exStateA 1 "a"
        { value := JSVal.num (JSNum.int 5) }).log =
      exStateA.log ++ [Mutation.defineProp 0 "a" { value := JSVal.num (JSNum.int 5) }] ∧
    (sentinelDefineProperty exStateA 1 "a"
        { value := JSVal.num (JSNum.int 1) }).log = exStateA.log ∧
    (sentinelDefineProperty exStateA 1 "a"
        { value := JSVal.num (JSNum.int 1) }).heap =
      defineOwnProp exStateA.heap 0 "a" { value := JSVal.num (JSNum.int 1) } :=
  ⟨by decide,
   (defineProperty_trap_classification exStateA 1 0 "a"
       { value := JSVal.num (JSNum.int 5) } (by decide)).1.mpr
     (Or.inr ⟨{ value := JSVal.num (JSNum.int 1) }, by decide, Or.inl (by decide)⟩),
   (defineProperty_trap_classification exStateA 1 0 "a"
       { value := JSVal.num (JSNum.int 1) } (by decide)).2.1.mpr
     (by rintro (hc | ⟨c, hc, hd⟩)
         · exact absurd hc (by decide)
         · have : c = { value := JSVal.num (JSNum.int 1) } := by
             have hx : getOwnDescriptor exStateA.heap 0 "a" =
                 some { value := JSVal.num (JSNum.int 1) } := by decide
             rw [hx] at hc
             cases hc
             rfl
           rw [this] at hd
           rcases hd with hd | hd
           · exact absurd hd (by decide)
           · exact absurd hd (by decide)),
   (defineProperty_trap_classification exStateA 1 0 "a"
       { value := JSVal.num (JSNum.int 1) } (by decide)).2.2.1⟩

end MutationSentinel

namespace MutationSentinel

/-- C9: writing `NaN` over a stored `NaN` through a sentinel invokes the
handler with a `set` record even though the stored value does not change:
the strict-equality fast path fails on `NaN` and a non-object can never be a
cached sentinel, so `_valueEq` returns false. -/
theorem nan_set_false_positive (s : SentinelState) (pr t : Nat) (p : String)
    (d : Descriptor) (h : proxyTargetOf s pr = some t)
    (hd : getOwnDescriptor s.heap t p = some d)
    (hv : d.value = JSVal.num JSNum.nan)
    (hw : d.writable = true) :
    (sentinelSet s pr p (JSVal.num JSNum.nan)).log =
      s.log ++ [Mutation.set t p (JSVal.num JSNum.nan)] ∧
    getProp (sentinelSet s pr p (JSVal.num JSNum.nan)).heap t p =
      JSVal.num JSNum.nan := by
  obtain ⟨f, props, proto, h1, h2⟩ := own_destruct hd
  have hcur : getProp s.heap t p = JSVal.num JSNum.nan := by
    rw [getProp_of_lookup h1 h2, hv]
  have hveq : _valueEq s.heap s.sentinelCache (JSVal.num JSNum.nan)
      (JSVal.num JSNum.nan) = false := rfl
  have hheap : (sentinelSet s pr p (JSVal.num JSNum.nan)).heap =
      setRawProp s.heap t p (JSVal.num JSNum.nan) := by
    simp only [sentinelSet, h, hcur, hveq]
    rw [if_neg (by simp)]
  constructor
  · simp only [sentinelSet, h, hcur, hveq]
    rw [if_neg (by simp)]
  · rw [hheap]
    have hsr : setRawProp s.heap t p (JSVal.num JSNum.nan) =
        setAssoc s.heap t
          (HeapObj.plain f
            (setAssoc props p { d with value := JSVal.num JSNum.nan }) proto) := by
      simp only [setRawProp, h1, h2]
      rw [if_pos hw]
    rw [hsr]
    exact getProp_of_lookup (lookup_setAssoc_self _ _ _) (lookup_setAssoc_self _ _ _)

/-- C9 witness: `obj = {a: NaN}` with sentinel at 1; `s.a = NaN` logs a set
record while the stored value stays `NaN`. -/
theorem nan_set_false_positive_witness :
    (proxyTargetOf exStateNaN 1 = some 0) ∧
    (sentinelSet exStateNaN 1 "a" (JSVal.num JSNum.nan)).log =
      exStateNaN.log ++ [Mutation.set 0 "a" (JSVal.num JSNum.nan)] ∧
    getProp (sentinelSet exStateNaN 1 "a" (JSVal.num JSNum.nan)).heap 0 "a" =
      JSVal.num JSNum.nan :=
  ⟨by decide,
   (nan_set_false_positive exStateNaN 1 0 "a" { value := JSVal.num JSNum.nan }
      (by decide) (by decide) (by decide) (by decide)).1,
   (nan_set_false_positive exStateNaN 1 0 "a" { value := JSVal.num JSNum.nan }
      (by decide) (by decide) (by decide) (by decide)).2⟩

/-- C6: a non-writable, non-configurable own property reads back through the
sentinel as the identical stored raw value with no state change (never a
wrapped form), and in general `_canMakeNestedSentinel` approves wrapping only
when an own descriptor exists that is writable or configurable. -/
theorem get_trap_descriptor_invariant (env : Env) (s : SentinelState)
    (pr t : Nat) (p : String) (d : Descriptor)
    (h : proxyTargetOf s pr = some t)
    (hd : getOwnDescriptor s.heap t p = some d)
    (hw : d.writable = false) (hc : d.configurable = false) :
    sentinelGet env s pr p = (d.value, s) ∧
    (∀ (heap : Heap) (kn : List Nat) (tr : Nat) (q : String) (tv : JSVal),
       _canMakeNestedSentinel heap kn tr q tv = true →
       ∃ d', getOwnDescriptor heap tr q = some d' ∧
         (d'.writable || d'.configurable) = true) := by
  have hcur : getProp s.heap t p = d.value := getProp_of_own hd
  have hcan : _canMakeNestedSentinel s.heap s.knownSentinels t p d.value = false := by
    cases hdv : d.value with
    | ref r =>
      simp only [_canMakeNestedSentinel]
      cases ht : (typeofIsObject s.heap (JSVal.ref r) ||
          typeofIsFunction s.heap (JSVal.ref r)) with
      | false => rw [if_pos (by simp [isNullish, ht])]
      | true =>
        rw [if_neg (by simp [isNullish, ht])]
        cases hk : s.knownSentinels.contains r with
        | true => rw [if_pos (by simp [hk])]
        | false =>
          rw [if_neg (by simp [hk])]
          simp only [hd, hw, hc]
          rfl
    | undef => simp [_canMakeNestedSentinel, isNullish]
    | null => simp [_canMakeNestedSentinel, isNullish]
    | bool b => simp [_canMakeNestedSentinel, isNullish, typeofIsObject, typeofIsFunction]
    | num n => simp [_canMakeNestedSentinel, isNullish, typeofIsObject, typeofIsFunction]
    | str st => simp [_canMakeNestedSentinel, isNullish, typeofIsObject, typeofIsFunction]
  constructor
  · simp only [sentinelGet, h, hcur, hcan]
    rw [if_neg (by simp)]
  · intro heap kn tr q tv hcm
    cases tv with
    | ref r =>
      simp only [_canMakeNestedSentinel] at hcm
      by_cases hc1 : (isNullish (JSVal.ref r) ||
          !(typeofIsObject heap (JSVal.ref r) || typeofIsFunction heap (JSVal.ref r))) = true
      · rw [if_pos hc1] at hcm
        cases hcm
      · rw [if_neg hc1] at hcm
        cases hk : kn.contains r with
        | true =>
          rw [if_pos hk] at hcm
          cases hcm
        | false =>
          rw [if_neg (by rw [hk]; simp)] at hcm
          cases hod : getOwnDescriptor heap tr q with
          | none => simp only [hod] at hcm; cases hcm
          | some d' =>
            simp only [hod] at hcm
            exact ⟨d', rfl, hcm⟩
    | undef => simp [_canMakeNestedSentinel, isNullish] at hcm
    | null => simp [_canMakeNestedSentinel, isNullish] at hcm
    | bool b => simp [_canMakeNestedSentinel, isNullish, typeofIsObject, typeofIsFunction] at hcm
    | num n => simp [_canMakeNestedSentinel, isNullish, typeofIsObject, typeofIsFunction] at hcm
    | str st => simp [_canMakeNestedSentinel, isNullish, typeofIsObject, typeofIsFunction] at hcm

/-- C6 witness: a frozen-style own property `"k"` (non-writable,
non-configurable) holding the plain object at reference 1 reads back through
the sentinel as the raw reference 1 with no state change. -/
theorem get_trap_descriptor_invariant_witness :
    (proxyTargetOf exStateRO 2 = some 0) ∧
    sentinelGet exEnv exStateRO 2 "k" = (JSVal.ref 1, exStateRO) :=
  ⟨by decide,
   (get_trap_descriptor_invariant exEnv exStateRO 2 0 "k"
      { value := JSVal.ref 1, writable := false, configurable := false }
      (by decide) (by decide) (by decide) (by decide)).1⟩

end MutationSentinel

namespace MutationSentinel

theorem wf_ref_lt {s : SentinelState} {r : Nat} (hwf : wfState s = true)
    (h : (s.heap.lookup r).isSome = true) : r < s.nextRef := by
  simp only [wfState, Bool.and_eq_true] at hwf
  obtain ⟨⟨⟨hw1, _hw2⟩, _hw3⟩, _hw4⟩ := hwf
  cases ho : s.heap.lookup r with
  | none => rw [ho] at h; cases h
  | some o =>
    have hmem := lookup_some_key_mem _ _ _ ho
    obtain ⟨kv, hkv, hfst⟩ := List.mem_map.mp hmem
    have := List.all_eq_true.mp hw1 kv hkv
    rw [hfst] at this
    exact of_decide_eq_true this

theorem wf_cached_known {s : SentinelState} {r sr : Nat} (hwf : wfState s = true)
    (hc : s.sentinelCache.lookup r = some sr) :
    s.knownSentinels.contains sr = true := by
  simp only [wfState, Bool.and_eq_true] at hwf
  obtain ⟨⟨⟨_hw1, _hw2⟩, _hw3⟩, hw4⟩ := hwf
  have hpair := lookup_some_pair_mem _ _ _ hc
  exact List.all_eq_true.mp hw4 (r, sr) hpair

/-- C8 (spec-modelled `isSentinel`): the public `isStandIn` operation returns
true exactly for known stand-ins: it is true on the sentinel just produced by
`makeSentinel`, false on the ordinary Observable that was wrapped, false on
every non-reference value (nullish and primitives), and in general true iff
the value is a reference recorded in the known-sentinel set. -/
theorem isSentinel_contract (env : Env) (s : SentinelState) (r : Nat)
    (hwf : wfState s = true)
    (hp : env.proxyAvailable = true) (hw : env.weakMapAvailable = true)
    (hobs : (typeofIsObject s.heap (JSVal.ref r) ||
             typeofIsFunction s.heap (JSVal.ref r)) = true)
    (hig : env.shouldIgnore (JSVal.ref r) = false)
    (hkn : s.knownSentinels.contains r = false)
    (hc : s.sentinelCache.lookup r = none) :
    isSentinel (makeSentinel env s (JSVal.ref r)).2
      (makeSentinel env s (JSVal.ref r)).1 = true ∧
    isSentinel (makeSentinel env s (JSVal.ref r)).2 (JSVal.ref r) = false ∧
    isSentinel s (JSVal.ref r) = false ∧
    (∀ (st : SentinelState) (v : JSVal), isRefVal v = false →
       isSentinel st v = false) ∧
    (∀ (st : SentinelState) (v : JSVal),
       isSentinel st v = true ↔
         ∃ q, v = JSVal.ref q ∧ st.knownSentinels.contains q = true) := by
  have hg : (!env.proxyAvailable || !env.weakMapAvailable ||
      isNullish (JSVal.ref r) ||
      !(typeofIsObject s.heap (JSVal.ref r) || typeofIsFunction s.heap (JSVal.ref r)) ||
      env.shouldIgnore (JSVal.ref r)) = false := by
    simp [hp, hw, hobs, hig, isNullish]
  have hlt : r < s.nextRef := wf_ref_lt hwf (typeof_true_lookup_isSome hobs)
  have hne : r ≠ s.nextRef := Nat.ne_of_lt hlt
  have hnm : r ∉ s.knownSentinels := by
    intro hm
    have hcontains : s.knownSentinels.contains r = true := List.elem_eq_true_of_mem hm
    rw [hcontains] at hkn
    cases hkn
  rw [makeSentinel_new env s r hg hkn hc]
  refine ⟨?_, ?_, ?_, ?_, ?_⟩
  · simp [isSentinel, contains_append_or]
  · simp [isSentinel, contains_append_or, List.contains_cons, hne, hnm]
  · simp [isSentinel, hnm]
  · intro st v hv
    cases v with
    | ref q => simp [isRefVal] at hv
    | undef => rfl
    | null => rfl
    | bool b => rfl
    | num n => rfl
    | str st2 => rfl
  · intro st v
    constructor
    · intro hv
      cases v with
      | ref q => exact ⟨q, rfl, hv⟩
      | undef => cases hv
      | null => cases hv
      | bool b => cases hv
      | num n => cases hv
      | str st2 => cases hv
    · rintro ⟨q, rfl, hq⟩
      exact hq

/-- C8 witness: wrapping the empty object at reference 0 yields a sentinel
recognised by `isSentinel`, while the original object, nullish values and
primitives are not. -/
theorem isSentinel_contract_witness :
    (wfState exStateEmptyObj = true ∧
     (typeofIsObject exStateEmptyObj.heap (JSVal.ref 0) ||
        typeofIsFunction exStateEmptyObj.heap (JSVal.ref 0)) = true ∧
     exEnv.shouldIgnore (JSVal.ref 0) = false ∧
     exStateEmptyObj.knownSentinels.contains 0 = false ∧
     exStateEmptyObj.sentinelCache.lookup 0 = none) ∧
    isSentinel (makeSentinel exEnv exStateEmptyObj (JSVal.ref 0)).2
      (makeSentinel exEnv exStateEmptyObj (JSVal.ref 0)).1 = true ∧
    isSentinel (makeSentinel exEnv exStateEmptyObj (JSVal.ref 0)).2
      (JSVal.ref 0) = false :=
  ⟨⟨by decide, by decide, by decide, by decide, by decide⟩,
   (isSentinel_contract exEnv exStateEmptyObj 0 (by decide) (by decide) (by decide)
      (by decide) (by decide) (by decide) (by decide)).1,
   (isSentinel_contract exEnv exStateEmptyObj 0 (by decide) (by decide) (by decide)
      (by decide) (by decide) (by decide) (by decide)).2.1⟩

end MutationSentinel

namespace MutationSentinel

/-- C1: identity stability of `makeSentinel`: for an eligible reference,
wrapping a second time returns the same sentinel reference with no state
change, and wrapping the result of a wrap returns that result unchanged —
one stand-in per target, and a stand-in is never re-wrapped. -/
theorem makeSentinel_identity_stable (env : Env) (s : SentinelState) (r : Nat)
    (hwf : wfState s = true)
    (hp : env.proxyAvailable = true) (hw : env.weakMapAvailable = true)
    (hobs : (typeofIsObject s.heap (JSVal.ref r) ||
             typeofIsFunction s.heap (JSVal.ref r)) = true)
    (hig : env.shouldIgnore (JSVal.ref r) = false) :
    makeSentinel env (makeSentinel env s (JSVal.ref r)).2 (JSVal.ref r) =
      ((makeSentinel env s (JSVal.ref r)).1, (makeSentinel env s (JSVal.ref r)).2) ∧
    makeSentinel env (makeSentinel env s (JSVal.ref r)).2
        (makeSentinel env s (JSVal.ref r)).1 =
      ((makeSentinel env s (JSVal.ref r)).1, (makeSentinel env s (JSVal.ref r)).2) := by
  have hg : (!env.proxyAvailable || !env.weakMapAvailable ||
      isNullish (JSVal.ref r) ||
      !(typeofIsObject s.heap (JSVal.ref r) || typeofIsFunction s.heap (JSVal.ref r)) ||
      env.shouldIgnore (JSVal.ref r)) = false := by
    simp [hp, hw, hobs, hig, isNullish]
  cases hkn : s.knownSentinels.contains r with
  | true =>
    rw [makeSentinel_known env s r hg hkn]
    exact ⟨makeSentinel_known env s r hg hkn, makeSentinel_known env s r hg hkn⟩
  | false =>
    cases hc : s.sentinelCache.lookup r with
    | some sr =>
      have hsrkn : s.knownSentinels.contains sr = true := wf_cached_known hwf hc
      rw [makeSentinel_cached env s r sr hg hkn hc]
      refine ⟨makeSentinel_cached env s r sr hg hkn hc, ?_⟩
      cases hg2 : (!env.proxyAvailable || !env.weakMapAvailable ||
          isNullish (JSVal.ref sr) ||
          !(typeofIsObject s.heap (JSVal.ref sr) ||
            typeofIsFunction s.heap (JSVal.ref sr)) ||
          env.shouldIgnore (JSVal.ref sr)) with
      | true => exact makeSentinel_pass env s (JSVal.ref sr) hg2
      | false => exact makeSentinel_known env s sr hg2 hsrkn
    | none =>
      have hsome := typeof_true_lookup_isSome hobs
      obtain ⟨o, ho⟩ := Option.isSome_iff_exists.mp hsome
      have hlt : r < s.nextRef := wf_ref_lt hwf hsome
      have hne : r ≠ s.nextRef := Nat.ne_of_lt hlt
      rw [makeSentinel_new env s r hg hkn hc]
      have hobs2 : (typeofIsObject
            (s.heap ++ [(s.nextRef, HeapObj.proxy r (refIsFunction s.heap r))])
            (JSVal.ref r) ||
          typeofIsFunction
            (s.heap ++ [(s.nextRef, HeapObj.proxy r (refIsFunction s.heap r))])
            (JSVal.ref r)) = true := by
        rw [typeof_append _ ho]
        exact hobs
      have hkn' : (s.knownSentinels ++ [s.nextRef]).contains r = false := by
        rw [contains_append_or, hkn]
        simp [List.contains_cons, hne]
      have hc' : (s.sentinelCache ++ [(r, s.nextRef)]).lookup r = some s.nextRef := by
        rw [lookup_append_right _ _ _ hc]
        simp [List.lookup]
      constructor
      · have hg' : (!env.proxyAvailable || !env.weakMapAvailable ||
            isNullish (JSVal.ref r) ||
            !(typeofIsObject
                (s.heap ++ [(s.nextRef, HeapObj.proxy r (refIsFunction s.heap r))])
                (JSVal.ref r) ||
              typeofIsFunction
                (s.heap ++ [(s.nextRef, HeapObj.proxy r (refIsFunction s.heap r))])
                (JSVal.ref r)) ||
            env.shouldIgnore (JSVal.ref r)) = false := by
          simp [hp, hw, hobs2, hig, isNullish]
        exact makeSentinel_cached env _ r s.nextRef hg' hkn' hc'
      · have hknp : (s.knownSentinels ++ [s.nextRef]).contains s.nextRef = true := by
          rw [contains_append_or]
          simp [List.contains_cons]
        cases hg2 : (!env.proxyAvailable || !env.weakMapAvailable ||
            isNullish (JSVal.ref s.nextRef) ||
            !(typeofIsObject
                (s.heap ++ [(s.nextRef, HeapObj.proxy r (refIsFunction s.heap r))])
                (JSVal.ref s.nextRef) ||
              typeofIsFunction
                (s.heap ++ [(s.nextRef, HeapObj.proxy r (refIsFunction s.heap r))])
                (JSVal.ref s.nextRef)) ||
            env.shouldIgnore (JSVal.ref s.nextRef)) with
        | true => exact makeSentinel_pass env _ (JSVal.ref s.nextRef) hg2
        | false => exact makeSentinel_known env _ s.nextRef hg2 hknp

/-- C1 witness: wrapping the empty object at reference 0 twice yields the
same sentinel and unchanged state, and wrapping the sentinel returns it. -/
theorem makeSentinel_identity_stable_witness :
    (wfState exStateEmptyObj = true ∧
     (typeofIsObject exStateEmptyObj.heap (JSVal.ref 0) ||
        typeofIsFunction exStateEmptyObj.heap (JSVal.ref 0)) = true ∧
     exEnv.shouldIgnore (JSVal.ref 0) = false) ∧
    makeSentinel exEnv (makeSentinel exEnv exStateEmptyObj (JSVal.ref 0)).2
        (JSVal.ref 0) =
      ((makeSentinel exEnv exStateEmptyObj (JSVal.ref 0)).1,
       (makeSentinel exEnv exStateEmptyObj (JSVal.ref 0)).2) ∧
    makeSentinel exEnv (makeSentinel exEnv exStateEmptyObj (JSVal.ref 0)).2
        (makeSentinel exEnv exStateEmptyObj (JSVal.ref 0)).1 =
      ((makeSentinel exEnv exStateEmptyObj (JSVal.ref 0)).1,
       (makeSentinel exEnv exStateEmptyObj (JSVal.ref 0)).2) :=
  ⟨⟨by decide, by decide, by decide⟩,
   (makeSentinel_identity_stable exEnv exStateEmptyObj 0 (by decide) (by decide)
      (by decide) (by decide) (by decide)).1,
   (makeSentinel_identity_stable exEnv exStateEmptyObj 0 (by decide) (by decide)
      (by decide) (by decide) (by decide)).2⟩

end MutationSentinel

namespace MutationSentinel

theorem strictEq_ref_ne {a b : Nat} (h : a ≠ b) :
    strictEq (JSVal.ref a) (JSVal.ref b) = false := by
  cases hb : (JSVal.ref a == JSVal.ref b) with
  | true =>
    have hab := eq_of_beq hb
    cases hab
    exact absurd rfl h
  | false => simp [strictEq, hb]

theorem proxyTarget_destruct {s : SentinelState} {pr t : Nat}
    (h : proxyTargetOf s pr = some t) :
    ∃ b, s.heap.lookup pr = some (HeapObj.proxy t b) := by
  revert h
  unfold proxyTargetOf
  cases hp : s.heap.lookup pr with
  | none => intro h; cases h
  | some o =>
    cases o with
    | plain f props proto => intro h; cases h
    | proxy t' b =>
      intro h
      cases h
      exact ⟨b, rfl⟩

theorem typeofIsObject_setAssoc_plain {heap : Heap} {t : Nat} {f : Bool}
    {props props' : List (String × Descriptor)} {proto proto' : JSVal}
    (h1 : heap.lookup t = some (HeapObj.plain f props proto)) :
    ∀ w, typeofIsObject (setAssoc heap t (HeapObj.plain f props' proto')) w =
      typeofIsObject heap w := by
  intro w
  cases w with
  | ref x =>
    by_cases hx : x = t
    · subst hx
      simp only [typeofIsObject, lookup_setAssoc_self, h1]
    · simp only [typeofIsObject, lookup_setAssoc_ne _ _ _ _ hx]
  | undef => rfl
  | null => rfl
  | bool b => rfl
  | num n => rfl
  | str st => rfl

theorem valueEq_ref_false_of {heap : Heap} {cache : List (Nat × Nat)} {a b : Nat}
    (hne : a ≠ b) (hobj : typeofIsObject heap (JSVal.ref b) = true)
    (hnc : cache.lookup a = none) :
    _valueEq heap cache (JSVal.ref a) (JSVal.ref b) = false := by
  simp only [_valueEq]
  rw [strictEq_ref_ne hne, if_neg (by simp),
    if_neg (by simp [isNullish, hobj])]
  simp [hnc]

theorem valueEq_ref_cached_true {heap : Heap} {cache : List (Nat × Nat)} {a b : Nat}
    (hne : a ≠ b) (hobj : typeofIsObject heap (JSVal.ref b) = true)
    (hc : cache.lookup a = some b) :
    _valueEq heap cache (JSVal.ref a) (JSVal.ref b) = true := by
  simp only [_valueEq]
  rw [strictEq_ref_ne hne, if_neg (by simp),
    if_neg (by simp [isNullish, hobj])]
  simp [hc, strictEq]

/-- C10 counterexample: the claim quantifies over every Observable target,
but for a callable target `fn` (reference 1 in `exStateFn2`) with stand-in
reference 3, `equivalent(fn, standIn)` is already false (the C4 slip), so
the claimed conjunction fails at this input. -/
theorem valueEq_asymmetry_counterexample :
    ¬ (_valueEq exStateFn2.heap exStateFn2.sentinelCache
         (JSVal.ref 1) (JSVal.ref 3) = true ∧
       _valueEq exStateFn2.heap exStateFn2.sentinelCache
         (JSVal.ref 3) (JSVal.ref 1) = false) := by
  decide

/-- C10 (amended to record/array-like targets): for an object-typed target
`tr` with cached stand-in `sr`, `_valueEq(tr, sr)` is true but
`_valueEq(sr, tr)` is false; the unreported write `s.p = sr` stores the raw
stand-in into the target's slot, and then writing the original `tr` back
through the stand-in is reported as a `set` mutation. -/
theorem valueEq_asymmetry_roundtrip (s : SentinelState) (pr t tr sr : Nat)
    (p : String) (d : Descriptor)
    (h : proxyTargetOf s pr = some t)
    (hd : getOwnDescriptor s.heap t p = some d)
    (hdv : d.value = JSVal.ref tr)
    (hwrit : d.writable = true)
    (hcache : s.sentinelCache.lookup tr = some sr)
    (hobj : typeofIsObject s.heap (JSVal.ref sr) = true)
    (htobj : typeofIsObject s.heap (JSVal.ref tr) = true)
    (hsnc : s.sentinelCache.lookup sr = none)
    (hne : tr ≠ sr) :
    _valueEq s.heap s.sentinelCache (JSVal.ref tr) (JSVal.ref sr) = true ∧
    _valueEq s.heap s.sentinelCache (JSVal.ref sr) (JSVal.ref tr) = false ∧
    (sentinelSet s pr p (JSVal.ref sr)).log = s.log ∧
    getProp (sentinelSet s pr p (JSVal.ref sr)).heap t p = JSVal.ref sr ∧
    (sentinelSet (sentinelSet s pr p (JSVal.ref sr)) pr p (JSVal.ref tr)).log =
      s.log ++ [Mutation.set t p (JSVal.ref tr)] := by
  obtain ⟨f, props, proto, h1, h2⟩ := own_destruct hd
  have hcur : getProp s.heap t p = JSVal.ref tr := by
    rw [getProp_of_own hd, hdv]
  have hveq1 : _valueEq s.heap s.sentinelCache (JSVal.ref tr) (JSVal.ref sr) = true :=
    valueEq_ref_cached_true hne hobj hcache
  have hfirst : sentinelSet s pr p (JSVal.ref sr) =
      { s with heap := setRawProp s.heap t p (JSVal.ref sr) } := by
    simp only [sentinelSet, h, hcur, hveq1]
    rw [if_pos trivial]
  have hsr : setRawProp s.heap t p (JSVal.ref sr) =
      setAssoc s.heap t
        (HeapObj.plain f (setAssoc props p { d with value := JSVal.ref sr }) proto) := by
    simp only [setRawProp, h1, h2]
    rw [if_pos hwrit]
  have hcur' : getProp (setRawProp s.heap t p (JSVal.ref sr)) t p = JSVal.ref sr := by
    rw [hsr]
    exact getProp_of_lookup (lookup_setAssoc_self _ _ _) (lookup_setAssoc_self _ _ _)
  refine ⟨hveq1, valueEq_ref_false_of (Ne.symm hne) htobj hsnc, by rw [hfirst], ?_, ?_⟩
  · rw [hfirst]
    exact hcur'
  · rw [hfirst]
    obtain ⟨b, hpr⟩ := proxyTarget_destruct h
    have hprt : pr ≠ t := by
      intro he
      rw [he, h1] at hpr
      simp at hpr
    have hlookpr : (setRawProp s.heap t p (JSVal.ref sr)).lookup pr =
        some (HeapObj.proxy t b) := by
      rw [hsr, lookup_setAssoc_ne _ _ _ _ hprt]
      exact hpr
    have hprox' : proxyTargetOf
        { s with heap := setRawProp s.heap t p (JSVal.ref sr) } pr = some t := by
      simp only [proxyTargetOf, hlookpr]
    have htobj' : typeofIsObject (setRawProp s.heap t p (JSVal.ref sr))
        (JSVal.ref tr) = true := by
      rw [hsr, typeofIsObject_setAssoc_plain h1]
      exact htobj
    have hveq2 : _valueEq (setRawProp s.heap t p (JSVal.ref sr)) s.sentinelCache
        (JSVal.ref sr) (JSVal.ref tr) = false :=
      valueEq_ref_false_of (Ne.symm hne) htobj' hsnc
    simp only [sentinelSet, hprox', hcur', hveq2]
    rw [if_neg (by simp)]

/-- C10 witness: `obj = {nested: {}}` (references 0 and 1) with sentinels 2
and 3: `_valueEq(nested, standIn)` is true and `_valueEq(standIn, nested)`
is false; `s.nested = standIn` logs nothing and stores the stand-in, and the
subsequent `s.nested = nested` (the raw original) logs a set record. -/
theorem valueEq_asymmetry_roundtrip_witness :
    (proxyTargetOf exStateNested 2 = some 0 ∧
     exStateNested.sentinelCache.lookup 1 = some 3 ∧
     exStateNested.sentinelCache.lookup 3 = none) ∧
    _valueEq exStateNested.heap exStateNested.sentinelCache
      (JSVal.ref 1) (JSVal.ref 3) = true ∧
    _valueEq exStateNested.heap exStateNested.sentinelCache
      (JSVal.ref 3) (JSVal.ref 1) = false ∧
    (sentinelSet exStateNested 2 "nested" (JSVal.ref 3)).log = exStateNested.log ∧
    (sentinelSet (sentinelSet exStateNested 2 "nested" (JSVal.ref 3)) 2 "nested"
        (JSVal.ref 1)).log =
      exStateNested.log ++ [Mutation.set 0 "nested" (JSVal.ref 1)] :=
  ⟨⟨by decide, by decide, by decide⟩,
   (valueEq_asymmetry_roundtrip exStateNested 2 0 1 3 "nested"
      { value := JSVal.ref 1 } (by decide) (by decide) (by decide) (by decide)
      (by decide) (by decide) (by decide) (by decide) (by decide)).1,
   (valueEq_asymmetry_roundtrip exStateNested 2 0 1 3 "nested"
      { value := JSVal.ref 1 } (by decide) (by decide) (by decide) (by decide)
      (by decide) (by decide) (by decide) (by decide) (by decide)).2.1,
   (valueEq_asymmetry_roundtrip exStateNested 2 0 1 3 "nested"
      { value := JSVal.ref 1 } (by decide) (by decide) (by decide) (by decide)
      (by decide) (by decide) (by decide) (by decide) (by decide)).2.2.1,
   (valueEq_asymmetry_roundtrip exStateNested 2 0 1 3 "nested"
      { value := JSVal.ref 1 } (by decide) (by decide) (by decide) (by decide)
      (by decide) (by decide) (by decide) (by decide) (by decide)).2.2.2.2⟩

end MutationSentinel
